import Mathlib

/-!
Shallow embedding of the client-side session/token lifecycle manager of
`src/lib/auth.ts` (class `AuthService`), together with the pieces of the
JavaScript runtime its code relies on: `String.prototype.split`,
`atob` (forgiving base64), percent-escaping plus `decodeURIComponent`
(strict UTF-8), `JSON.parse` / `JSON.stringify`, JS truthiness and
number coercion, and `localStorage` guarded by `typeof window`.

Machine integers do not appear: JS numbers that matter here are the
integer milliseconds of `Date.now()` (modelled as `Nat`) and JSON
numbers (modelled as exact decimals `mant * 10 ^ exp10`; IEEE-754
rounding is out of scope and no theorem depends on it).
-/

/-- JS single-character `String.prototype.split` (no limit argument):
`"".split(sep) = [""]`, separators at the ends produce empty pieces. -/
def splitCharAux (sep : Char) : List Char → List Char → List (List Char)
  | [], acc => [acc.reverse]
  | c :: rest, acc =>
    if c = sep then acc.reverse :: splitCharAux sep rest []
    else splitCharAux sep rest (c :: acc)

def jsSplit (sep : Char) (s : String) : List (List Char) :=
  splitCharAux sep s.toList []

/-- ASCII whitespace stripped by the forgiving-base64 decoder:
TAB, LF, FF, CR, SPACE. -/
def isB64Ws (c : Char) : Bool :=
  c == '\t' || c == '\n' || c == Char.ofNat 12 || c == '\r' || c == ' '

/-- Base64 alphabet value of a character, `none` when outside it. -/
def b64Index (c : Char) : Option Nat :=
  if 'A' ≤ c ∧ c ≤ 'Z' then some (c.toNat - 'A'.toNat)
  else if 'a' ≤ c ∧ c ≤ 'z' then some (c.toNat - 'a'.toNat + 26)
  else if '0' ≤ c ∧ c ≤ '9' then some (c.toNat - '0'.toNat + 52)
  else if c = '+' then some 62
  else if c = '/' then some 63
  else none

/-- Turn base64 sextets into bytes: 4 sextets give 3 bytes, a final pair
gives 1 byte, a final triple gives 2 bytes (low leftover bits are
discarded), a single leftover sextet is an error. -/
def b64Bytes : List Nat → Option (List Nat)
  | [] => some []
  | [_] => none
  | [a, b] => some [a * 4 + b / 16]
  | [a, b, c] => some [a * 4 + b / 16, (b % 16) * 16 + c / 4]
  | a :: b :: c :: d :: rest =>
    (b64Bytes rest).map fun tail =>
      (a * 4 + b / 16) :: ((b % 16) * 16 + c / 4) :: ((c % 4) * 64 + d) :: tail

/-- WHATWG forgiving-base64 decode, the semantics of JS `atob`:
strip ASCII whitespace; if the length is a multiple of 4, drop up to two
trailing `=`; fail when the remaining length is `1 mod 4` or any
character is outside the base64 alphabet; otherwise decode to bytes. -/
def atob (s : String) : Option (List Nat) :=
  let cs0 := s.toList.filter (fun c => !(isB64Ws c))
  let cs :=
    if cs0.length % 4 = 0 then
      if cs0.reverse.take 2 = ['=', '='] then cs0.dropLast.dropLast
      else if cs0.reverse.take 1 = ['='] then cs0.dropLast
      else cs0
    else cs0
  if cs.length % 4 = 1 then none
  else
    match (cs.map b64Index).allSome with
    | none => none
    | some sextets => b64Bytes sextets

/-- Classification of a UTF-8 lead byte: number of continuation bytes,
allowed range of the first continuation byte (the later ones are always
`0x80`–`0xBF`), and the initial accumulator.  The ranges are the strict
ones (no overlong forms, no surrogates, nothing above `U+10FFFF`), which
is what `decodeURIComponent` enforces. -/
def utf8Lead (b : Nat) : Option (Nat × Nat × Nat × Nat) :=
  if 0xC2 ≤ b ∧ b ≤ 0xDF then some (1, 0x80, 0xBF, b - 0xC0)
  else if b = 0xE0 then some (2, 0xA0, 0xBF, 0)
  else if 0xE1 ≤ b ∧ b ≤ 0xEC then some (2, 0x80, 0xBF, b - 0xE0)
  else if b = 0xED then some (2, 0x80, 0x9F, 0xD)
  else if 0xEE ≤ b ∧ b ≤ 0xEF then some (2, 0x80, 0xBF, b - 0xE0)
  else if b = 0xF0 then some (3, 0x90, 0xBF, 0)
  else if 0xF1 ≤ b ∧ b ≤ 0xF3 then some (3, 0x80, 0xBF, b - 0xF0)
  else if b = 0xF4 then some (3, 0x80, 0x8F, 4)
  else none

/-- Decode one UTF-8 scalar from `b` and the list of following bytes;
returns the code point and the unconsumed rest. -/
def utf8Step (b : Nat) (bs : List Nat) : Option (Nat × List Nat) :=
  if b < 0x80 then some (b, bs)
  else
    match utf8Lead b with
    | none => none
    | some (n, lo, hi, acc) =>
      match n, bs with
      | 1, b1 :: rest =>
        if lo ≤ b1 ∧ b1 ≤ hi then some (acc * 64 + (b1 - 0x80), rest) else none
      | 2, b1 :: b2 :: rest =>
        if lo ≤ b1 ∧ b1 ≤ hi ∧ 0x80 ≤ b2 ∧ b2 ≤ 0xBF then
          some (acc * 4096 + (b1 - 0x80) * 64 + (b2 - 0x80), rest)
        else none
      | 3, b1 :: b2 :: b3 :: rest =>
        if lo ≤ b1 ∧ b1 ≤ hi ∧ 0x80 ≤ b2 ∧ b2 ≤ 0xBF ∧ 0x80 ≤ b3 ∧ b3 ≤ 0xBF then
          some (acc * 262144 + (b1 - 0x80) * 4096 + (b2 - 0x80) * 64 + (b3 - 0x80), rest)
        else none
      | _, _ => none

/-- Strict UTF-8 decoding of a byte list to code points, fuelled by the
input length (each step consumes at least one byte). -/
def utf8DecodeAux : Nat → List Nat → Option (List Nat)
  | _, [] => some []
  | 0, _ :: _ => none
  | fuel + 1, b :: rest =>
    match utf8Step b rest with
    | none => none
    | some (cp, rest2) => (utf8DecodeAux fuel rest2).map (cp :: ·)

def utf8Decode (bs : List Nat) : Option (List Nat) :=
  utf8DecodeAux bs.length bs

/-- Lowercase hex digit. -/
def hexDigit (n : Nat) : Char :=
  if n < 10 then Char.ofNat ('0'.toNat + n)
  else Char.ofNat ('a'.toNat + (n - 10))

/-- The map in `decodeJWT`: `'%' + ('00' + c.charCodeAt(0).toString(16)).slice(-2)`
applied to each byte of the `atob` output, concatenated.  Bytes are `< 256`,
so the result of `slice(-2)` is exactly two lowercase hex digits. -/
def percentEncode (bs : List Nat) : List Char :=
  (bs.map fun b => ['%', hexDigit (b / 16 % 16), hexDigit (b % 16)]).flatten

/-- Value of a hex digit character (either case), `none` otherwise. -/
def hexVal (c : Char) : Option Nat :=
  if '0' ≤ c ∧ c ≤ '9' then some (c.toNat - '0'.toNat)
  else if 'a' ≤ c ∧ c ≤ 'f' then some (c.toNat - 'a'.toNat + 10)
  else if 'A' ≤ c ∧ c ≤ 'F' then some (c.toNat - 'A'.toNat + 10)
  else none

/-- First pass of `decodeURIComponent`: each `%hh` escape becomes a byte
(`Sum.inl`), any other character stays as itself (`Sum.inr`); a `%` not
followed by two hex digits is a `URIError`. -/
def pctItems : List Char → Option (List (Nat ⊕ Char))
  | [] => some []
  | '%' :: h1 :: h2 :: rest =>
    match hexVal h1, hexVal h2 with
    | some a, some b => (pctItems rest).map (Sum.inl (a * 16 + b) :: ·)
    | _, _ => none
  | '%' :: _ => none
  | c :: rest => (pctItems rest).map (Sum.inr c :: ·)

/-- Take the maximal prefix of escape-produced bytes. -/
def takeBytes : List (Nat ⊕ Char) → List Nat × List (Nat ⊕ Char)
  | Sum.inl b :: rest =>
    let (bs, rest2) := takeBytes rest
    (b :: bs, rest2)
  | items => ([], items)

/-- Second pass of `decodeURIComponent`: maximal runs of escape bytes are
decoded as strict UTF-8; other characters pass through unchanged.
Fuelled by the item count. -/
def pctDecodeAux : Nat → List (Nat ⊕ Char) → Option (List Nat)
  | _, [] => some []
  | 0, _ :: _ => none
  | fuel + 1, Sum.inr c :: rest => (pctDecodeAux fuel rest).map (c.toNat :: ·)
  | fuel + 1, Sum.inl b :: rest =>
    let (bs, rest2) := takeBytes rest
    match utf8Decode (b :: bs) with
    | none => none
    | some cps => (pctDecodeAux fuel rest2).map (cps ++ ·)

/-- JS `decodeURIComponent`: `none` models a thrown `URIError`. -/
def decodeURIComponent (cs : List Char) : Option (List Char) :=
  match pctItems cs with
  | none => none
  | some items =>
    match pctDecodeAux items.length items with
    | none => none
    | some cps => some (cps.map Char.ofNat)

/-- Exact decimal number `mant * 10 ^ exp10`, the value class JSON and
JS numeric strings denote.  IEEE-754 rounding performed by a real JS
engine is not modelled (no theorem below depends on a number that
floats would round).  Kept unnormalised so that every arithmetic step
is plain integer computation. -/
structure JNum where
  mant : Int
  exp10 : Int
  deriving DecidableEq, Repr

/-- Rational value denoted by a `JNum` (used in specifications only). -/
def jnumToRat (n : JNum) : ℚ :=
  if 0 ≤ n.exp10 then (n.mant : ℚ) * 10 ^ n.exp10.toNat
  else (n.mant : ℚ) / 10 ^ (-n.exp10).toNat

/-- JSON values as produced by `JSON.parse`. -/
inductive JVal where
  | jnull
  | jbool (b : Bool)
  | jnum (n : JNum)
  | jstr (s : String)
  | jarr (xs : List JVal)
  | jobj (ms : List (String × JVal))

/-- JSON insignificant whitespace: space, TAB, LF, CR. -/
def isJsonWs (c : Char) : Bool :=
  c == ' ' || c == '\t' || c == '\n' || c == '\r'

def skipWs (cs : List Char) : List Char :=
  cs.dropWhile isJsonWs

def digitsToNat (ds : List Char) : Nat :=
  ds.foldl (fun a c => a * 10 + (c.toNat - '0'.toNat)) 0

/-- Body of a JSON string literal after the opening quote, fuelled by the
input length.  A raw control character or an unterminated / malformed
escape is a parse error.  JS strings may hold lone UTF-16 surrogates,
which `Char` cannot; a lone surrogate in a `\uXXXX` escape is modelled
as `U+FFFD` (no theorem depends on such an input). -/
def parseJStringAux : Nat → List Char → List Char → Option (String × List Char)
  | _, [], _ => none
  | 0, _ :: _, _ => none
  | fuel + 1, c :: rest, acc =>
    if c = '"' then some (String.mk acc.reverse, rest)
    else if c = '\\' then
      match rest with
      | 'u' :: h1 :: h2 :: h3 :: h4 :: rest2 =>
        match hexVal h1, hexVal h2, hexVal h3, hexVal h4 with
        | some a, some b, some cdig, some d =>
          let cu := ((a * 16 + b) * 16 + cdig) * 16 + d
          if 0xD800 ≤ cu ∧ cu ≤ 0xDBFF then
            match rest2 with
            | '\\' :: 'u' :: g1 :: g2 :: g3 :: g4 :: rest3 =>
              match hexVal g1, hexVal g2, hexVal g3, hexVal g4 with
              | some a2, some b2, some c2, some d2 =>
                let cu2 := ((a2 * 16 + b2) * 16 + c2) * 16 + d2
                if 0xDC00 ≤ cu2 ∧ cu2 ≤ 0xDFFF then
                  let cp := 0x10000 + (cu - 0xD800) * 0x400 + (cu2 - 0xDC00)
                  parseJStringAux fuel rest3 (Char.ofNat cp :: acc)
                else parseJStringAux fuel rest2 (Char.ofNat 0xFFFD :: acc)
              | _, _, _, _ => parseJStringAux fuel rest2 (Char.ofNat 0xFFFD :: acc)
            | _ => parseJStringAux fuel rest2 (Char.ofNat 0xFFFD :: acc)
          else if 0xDC00 ≤ cu ∧ cu ≤ 0xDFFF then
            parseJStringAux fuel rest2 (Char.ofNat 0xFFFD :: acc)
          else parseJStringAux fuel rest2 (Char.ofNat cu :: acc)
        | _, _, _, _ => none
      | e :: rest2 =>
        if e = '"' then parseJStringAux fuel rest2 ('"' :: acc)
        else if e = '\\' then parseJStringAux fuel rest2 ('\\' :: acc)
        else if e = '/' then parseJStringAux fuel rest2 ('/' :: acc)
        else if e = 'b' then parseJStringAux fuel rest2 (Char.ofNat 8 :: acc)
        else if e = 'f' then parseJStringAux fuel rest2 (Char.ofNat 12 :: acc)
        else if e = 'n' then parseJStringAux fuel rest2 ('\n' :: acc)
        else if e = 'r' then parseJStringAux fuel rest2 (Char.ofNat 13 :: acc)
        else if e = 't' then parseJStringAux fuel rest2 ('\t' :: acc)
        else none
      | [] => none
    else if c.toNat < 0x20 then none
    else parseJStringAux fuel rest (c :: acc)

/-- JSON number token: `-? (0 | [1-9][0-9]*) (. [0-9]+)? ([eE][+-]?[0-9]+)?`.
Returns the exact rational value and the unconsumed input.  A leading
zero is consumed alone (`012` parses the `0` and leaves `12`, which then
fails at the grammar level exactly as in `JSON.parse`). -/
def parseJNumber (cs : List Char) : Option (JNum × List Char) :=
  let (neg, cs1) :=
    match cs with
    | '-' :: r => (true, r)
    | _ => (false, cs)
  let ds := cs1.takeWhile (·.isDigit)
  if ds = [] then none
  else
    let intDs := if ds.head? = some '0' then ['0'] else ds
    let cs2 := cs1.drop intDs.length
    let fracRes : Option (List Char × List Char) :=
      match cs2 with
      | '.' :: r =>
        let fds := r.takeWhile (·.isDigit)
        if fds = [] then none else some (fds, r.drop fds.length)
      | _ => some ([], cs2)
    match fracRes with
    | none => none
    | some (fds, cs3) =>
      let expRes : Option (Int × List Char) :=
        match cs3 with
        | 'e' :: r =>
          let (esign, r2) :=
            match r with
            | '+' :: rr => ((1 : Int), rr)
            | '-' :: rr => ((-1 : Int), rr)
            | _ => ((1 : Int), r)
          let eds := r2.takeWhile (·.isDigit)
          if eds = [] then none else some (esign * digitsToNat eds, r2.drop eds.length)
        | 'E' :: r =>
          let (esign, r2) :=
            match r with
            | '+' :: rr => ((1 : Int), rr)
            | '-' :: rr => ((-1 : Int), rr)
            | _ => ((1 : Int), r)
          let eds := r2.takeWhile (·.isDigit)
          if eds = [] then none else some (esign * digitsToNat eds, r2.drop eds.length)
        | _ => some (0, cs3)
      match expRes with
      | none => none
      | some (e, cs4) =>
        let m : Int := (digitsToNat intDs * 10 ^ fds.length + digitsToNat fds : Nat)
        some (⟨if neg then -m else m, e - fds.length⟩, cs4)

mutual

/-- Recursive-descent JSON value, fuelled (fuel `2 * length + 4` always
suffices, since every recursive call follows consumption of at least one
input character). -/
def parseVal : Nat → List Char → Option (JVal × List Char)
  | 0, _ => none
  | fuel + 1, cs =>
    match skipWs cs with
    | [] => none
    | c :: rest =>
      if c = 'n' then
        match rest with
        | 'u' :: 'l' :: 'l' :: r => some (.jnull, r)
        | _ => none
      else if c = 't' then
        match rest with
        | 'r' :: 'u' :: 'e' :: r => some (.jbool true, r)
        | _ => none
      else if c = 'f' then
        match rest with
        | 'a' :: 'l' :: 's' :: 'e' :: r => some (.jbool false, r)
        | _ => none
      else if c = '"' then
        match parseJStringAux rest.length rest [] with
        | none => none
        | some (s, r) => some (.jstr s, r)
      else if c = '[' then
        match skipWs rest with
        | ']' :: r => some (.jarr [], r)
        | _ => parseElems fuel rest []
      else if c = Char.ofNat 123 then
        match skipWs rest with
        | d :: r => if d = Char.ofNat 125 then some (.jobj [], r) else parseMembers fuel rest []
        | [] => none
      else if c.isDigit ∨ c = '-' then
        match parseJNumber (c :: rest) with
        | none => none
        | some (q, r) => some (.jnum q, r)
      else none

/-- Array elements after `[` (at least one). -/
def parseElems : Nat → List Char → List JVal → Option (JVal × List Char)
  | 0, _, _ => none
  | fuel + 1, cs, acc =>
    match parseVal fuel cs with
    | none => none
    | some (v, r) =>
      match skipWs r with
      | ',' :: r2 => parseElems fuel r2 (v :: acc)
      | ']' :: r2 => some (.jarr (v :: acc).reverse, r2)
      | _ => none

/-- Object members after `{` (at least one). -/
def parseMembers : Nat → List Char → List (String × JVal) → Option (JVal × List Char)
  | 0, _, _ => none
  | fuel + 1, cs, acc =>
    match skipWs cs with
    | '"' :: r =>
      match parseJStringAux r.length r [] with
      | none => none
      | some (k, r2) =>
        match skipWs r2 with
        | ':' :: r3 =>
          match parseVal fuel r3 with
          | none => none
          | some (v, r4) =>
            match skipWs r4 with
            | ',' :: r5 => parseMembers fuel r5 ((k, v) :: acc)
            | d :: r5 =>
              if d = Char.ofNat 125 then some (.jobj ((k, v) :: acc).reverse, r5) else none
            | [] => none
        | _ => none
    | _ => none

end

/-- `JSON.parse`: `none` models a thrown `SyntaxError`. -/
def jsonParse (s : String) : Option JVal :=
  let cs := s.toList
  match parseVal (2 * cs.length + 4) cs with
  | none => none
  | some (v, rest) => if skipWs rest = [] then some v else none

/-- JS truthiness of a JSON value (`NaN` cannot come out of
`JSON.parse`, and `undefined` is represented by `Option.none` at use
sites). -/
def jsTruthy : JVal → Bool
  | .jnull => false
  | .jbool b => b
  | .jnum n => !(n.mant == 0)
  | .jstr s => !(s == "")
  | .jarr _ => true
  | .jobj _ => true

/-- JS property read `j.k` on a parsed JSON value: on objects the last
occurrence of a duplicated key wins (as in a JS object literal); on
every other value the property is `undefined` (`none`).  (`null.k`
would throw, but every use below is guarded by a truthiness check.) -/
def objGet (j : JVal) (k : String) : Option JVal :=
  match j with
  | .jobj ms => (ms.reverse.find? (fun m => m.1 == k)).map (·.2)
  | _ => none

/-- Whitespace trimmed by JS `Number(string)` (WhiteSpace and
LineTerminator code points). -/
def isJsTrimWs (c : Char) : Bool :=
  c == ' ' || c == '\t' || c == '\n' || c == '\r' ||
  c == Char.ofNat 0xB || c == Char.ofNat 0xC || c == Char.ofNat 0xA0 ||
  c == Char.ofNat 0x1680 || (0x2000 ≤ c.toNat && c.toNat ≤ 0x200A) ||
  c == Char.ofNat 0x2028 || c == Char.ofNat 0x2029 || c == Char.ofNat 0x202F ||
  c == Char.ofNat 0x205F || c == Char.ofNat 0x3000 || c == Char.ofNat 0xFEFF

/-- Unsigned decimal literal of JS `Number(string)`:
`digits [. digits] [exp]` or `. digits [exp]` (either side of the dot
may be empty but not both). -/
def parseDecimalNum (cs : List Char) : Option JNum :=
  let ds := cs.takeWhile (·.isDigit)
  let cs2 := cs.drop ds.length
  let fracRes : Option (List Char × List Char) :=
    match cs2 with
    | '.' :: r =>
      let fds := r.takeWhile (·.isDigit)
      some (fds, r.drop fds.length)
    | _ => some ([], cs2)
  match fracRes with
  | none => none
  | some (fds, cs3) =>
    if ds = [] ∧ fds = [] then none
    else
      let expRes : Option (Int × List Char) :=
        match cs3 with
        | 'e' :: r =>
          let (esign, r2) :=
            match r with
            | '+' :: rr => ((1 : Int), rr)
            | '-' :: rr => ((-1 : Int), rr)
            | _ => ((1 : Int), r)
          let eds := r2.takeWhile (·.isDigit)
          if eds = [] then none else some (esign * digitsToNat eds, r2.drop eds.length)
        | 'E' :: r =>
          let (esign, r2) :=
            match r with
            | '+' :: rr => ((1 : Int), rr)
            | '-' :: rr => ((-1 : Int), rr)
            | _ => ((1 : Int), r)
          let eds := r2.takeWhile (·.isDigit)
          if eds = [] then none else some (esign * digitsToNat eds, r2.drop eds.length)
        | _ => some (0, cs3)
      match expRes with
      | none => none
      | some (e, cs4) =>
        if cs4 = [] then
          some ⟨(digitsToNat ds * 10 ^ fds.length + digitsToNat fds : Nat), e - fds.length⟩
        else none

/-- Digits of a given base, or `none`. -/
def radixVal (base : Nat) (c : Char) : Option Nat :=
  match hexVal c with
  | some v => if v < base then some v else none
  | none => none

/-- JS `Number(string)` as an exact rational; `none` stands for `NaN`
and for `±Infinity` (`"Infinity"` forms and out-of-range magnitudes are
collapsed; the only consumer below compares with `≥`, where `NaN` and
`+Infinity` both yield `false`; `-Infinity` cannot reach it because the
guarding truthiness check already filtered the relevant shapes — the
collapse is a documented abstraction, not load-bearing for any claim). -/
def jsStringToNumber (s : String) : Option JNum :=
  let cs := (s.toList.dropWhile isJsTrimWs).reverse.dropWhile isJsTrimWs |>.reverse
  match cs with
  | [] => some ⟨0, 0⟩
  | '0' :: x :: r =>
    if x = 'x' ∨ x = 'X' then
      match (r.map (radixVal 16)).allSome with
      | some vs => if vs = [] then none else some ⟨(vs.foldl (fun a v => a * 16 + v) 0 : Nat), 0⟩
      | none => none
    else if x = 'o' ∨ x = 'O' then
      match (r.map (radixVal 8)).allSome with
      | some vs => if vs = [] then none else some ⟨(vs.foldl (fun a v => a * 8 + v) 0 : Nat), 0⟩
      | none => none
    else if x = 'b' ∨ x = 'B' then
      match (r.map (radixVal 2)).allSome with
      | some vs => if vs = [] then none else some ⟨(vs.foldl (fun a v => a * 2 + v) 0 : Nat), 0⟩
      | none => none
    else parseDecimalNum cs
  | '+' :: r => if r = ['I','n','f','i','n','i','t','y'] then none else parseDecimalNum r
  | '-' :: r =>
    if r = ['I','n','f','i','n','i','t','y'] then none
    else (parseDecimalNum r).map (fun n => ⟨-n.mant, n.exp10⟩)
  | _ =>
    if cs = ['I','n','f','i','n','i','t','y'] then none else parseDecimalNum cs

/-- JS `ToNumber` coercion of a parsed JSON value; `none` stands for
`NaN`.  Arrays and objects coerce through their string form in JS
(`Number([5]) = 5`, `Number({}) = NaN`); only the empty array (which
coerces to `0`) is modelled exactly, other composites are collapsed to
`NaN` — no claim below exercises them. -/
def toNumber : JVal → Option JNum
  | .jnull => some ⟨0, 0⟩
  | .jbool b => some ⟨if b then 1 else 0, 0⟩
  | .jnum n => some n
  | .jstr s => jsStringToNumber s
  | .jarr [] => some ⟨0, 0⟩
  | .jarr (_ :: _) => none
  | .jobj _ => none

/-- JSON string escaping of `JSON.stringify`. -/
def escChar (c : Char) : List Char :=
  if c = '"' then ['\\', '"']
  else if c = '\\' then ['\\', '\\']
  else if c = Char.ofNat 8 then ['\\', 'b']
  else if c = Char.ofNat 12 then ['\\', 'f']
  else if c = '\n' then ['\\', 'n']
  else if c = Char.ofNat 13 then ['\\', 'r']
  else if c = '\t' then ['\\', 't']
  else if c.toNat < 0x20 then ['\\', 'u', '0', '0', hexDigit (c.toNat / 16), hexDigit (c.toNat % 16)]
  else [c]

def escapeJString (s : String) : String :=
  "\"" ++ String.mk (s.toList.map escChar).flatten ++ "\""

/-- Decimal rendering of a JSON number for `JSON.stringify`.  Values
are printed exactly in plain decimal; the exponent notation JS switches
to for very large or very small magnitudes and its shortest-round-trip
float printing are not modelled (no theorem reads this output). -/
def numRepr (n : JNum) : String :=
  if 0 ≤ n.exp10 then toString (n.mant * 10 ^ n.exp10.toNat)
  else
    let k := (-n.exp10).toNat
    let a := n.mant.natAbs
    let sign := if n.mant < 0 then "-" else ""
    let fpStr := toString (a % 10 ^ k)
    let padded := String.mk (List.replicate (k - fpStr.length) '0') ++ fpStr
    let trimmed := String.mk (padded.toList.reverse.dropWhile (fun c => c = '0')).reverse
    if trimmed = "" then sign ++ toString (a / 10 ^ k)
    else sign ++ toString (a / 10 ^ k) ++ "." ++ trimmed

mutual

/-- `JSON.stringify` on parsed JSON values (no `undefined`, functions or
cycles can occur in them). -/
def stringify : JVal → String
  | .jnull => "null"
  | .jbool true => "true"
  | .jbool false => "false"
  | .jnum q => numRepr q
  | .jstr s => escapeJString s
  | .jarr xs => "[" ++ stringifyItems xs ++ "]"
  | .jobj ms => "\x7b" ++ stringifyMembers ms ++ "\x7d"

def stringifyItems : List JVal → String
  | [] => ""
  | [x] => stringify x
  | x :: rest => stringify x ++ "," ++ stringifyItems rest

def stringifyMembers : List (String × JVal) → String
  | [] => ""
  | [(k, v)] => escapeJString k ++ ":" ++ stringify v
  | (k, v) :: rest => escapeJString k ++ ":" ++ stringify v ++ "," ++ stringifyMembers rest

end

/-- `AuthService.decodeJWT` (src/lib/auth.ts lines 96–110): take segment
1 of the dot-split token (when there is no segment 1 the subsequent
`.replace` on `undefined` throws, caught by the surrounding `try`),
translate the URL-safe base64 alphabet to the standard one, `atob`,
percent-escape every byte, `decodeURIComponent`, `JSON.parse`.  `none`
models the `catch` branch returning `null`. -/
def decodeJWT (token : String) : Option JVal :=
  match (jsSplit '.' token).get? 1 with
  | none => none
  | some seg =>
    let b64 := seg.map fun c => if c = '-' then '+' else if c = '_' then '/' else c
    match atob (String.mk b64) with
    | none => none
    | some bytes =>
      match decodeURIComponent (percentEncode bytes) with
      | none => none
      | some payload => jsonParse (String.mk payload)

/-- Decision procedure for the JS comparison `now >= x * 1000` over the
exact value `x.mant * 10 ^ x.exp10`, done in integers by clearing the
power of ten (see `jsGeNum_iff` for its correctness against `ℚ`). -/
def jsGeNum (now : ℕ) (x : JNum) : Bool :=
  if 0 ≤ x.exp10 then decide (x.mant * 10 ^ x.exp10.toNat * 1000 ≤ (now : ℤ))
  else decide (x.mant * 1000 ≤ (now : ℤ) * 10 ^ (-x.exp10).toNat)

/-- JS falsiness of a nullable string (`null` and `""` are falsy). -/
def strOptFalsy : Option String → Bool
  | none => true
  | some s => s == ""

/-- `AuthService.isTokenExpired` (lines 112–117).  `now` is the value of
`Date.now()` in milliseconds (a nonnegative integer on any real clock).
`return Date.now() >= decoded.exp * 1000` goes through JS `ToNumber` on
`decoded.exp`; a `NaN` comparison yields `false`. -/
def isTokenExpired (now : ℕ) (token : Option String) : Bool :=
  if strOptFalsy token then true
  else
    match token with
    | none => true
    | some t =>
      match decodeJWT t with
      | none => true
      | some decoded =>
        if !(jsTruthy decoded) then true
        else
          match objGet decoded "exp" with
          | none => true
          | some e =>
            if !(jsTruthy e) then true
            else
              match toNumber e with
              | none => false
              | some x => jsGeNum now x

/-- State visible to `AuthService` plus the bits of its environment the
claims speak about: the three `localStorage` entries (readable and
writable only when `typeof window !== 'undefined'`, the `hasWindow`
flag), the private `refreshTimer` handle, and the event loop's list of
scheduled, not-yet-cancelled timeouts `(handle, delay in ms)` with the
next fresh handle.  Only `AuthService` schedules timeouts here, so
`pendingTimers` is exactly the set of pending scheduled refreshes. -/
structure AuthState where
  hasWindow : Bool
  accessToken : Option String
  refreshToken : Option String
  userRaw : Option String
  refreshTimer : Option Nat
  pendingTimers : List (Nat × Nat)
  nextTimerId : Nat
  deriving DecidableEq, Repr

/-- JS `setTimeout`: allocate a fresh handle for a pending one-shot
callback with the given delay. -/
def setTimeout (delay : Nat) (s : AuthState) : AuthState × Nat :=
  ({ s with
      pendingTimers := s.pendingTimers ++ [(s.nextTimerId, delay)],
      nextTimerId := s.nextTimerId + 1 },
   s.nextTimerId)

/-- JS `clearTimeout`: drop the pending timeout with that handle, if any. -/
def clearTimeout (id : Nat) (s : AuthState) : AuthState :=
  { s with pendingTimers := s.pendingTimers.filter (fun p => p.1 ≠ id) }

/-- `AuthService.setTokens` (lines 11–16). -/
def setTokens (a r : String) (s : AuthState) : AuthState :=
  if s.hasWindow then { s with accessToken := some a, refreshToken := some r } else s

/-- `AuthService.getAccessToken` (lines 18–23). -/
def getAccessToken (s : AuthState) : Option String :=
  if s.hasWindow then s.accessToken else none

/-- `AuthService.getRefreshToken` (lines 25–30). -/
def getRefreshToken (s : AuthState) : Option String :=
  if s.hasWindow then s.refreshToken else none

/-- `AuthService.setUser` (lines 32–36): stores `JSON.stringify(user)`. -/
def setUser (u : JVal) (s : AuthState) : AuthState :=
  if s.hasWindow then { s with userRaw := some (stringify u) } else s

/-- `AuthService.getUser` (lines 38–51): `JSON.parse` of the stored
text; a falsy entry (`null` or `""`) returns `null` early; a parse
error is caught, the corrupted entry is removed and `null` returned.
The returned pair is (result, storage afterwards). -/
def getUser (s : AuthState) : Option JVal × AuthState :=
  if s.hasWindow then
    match s.userRaw with
    | none => (none, s)
    | some us =>
      if us == "" then (none, s)
      else
        match jsonParse us with
        | some j => (some j, s)
        | none => (none, { s with userRaw := none })
  else (none, s)

/-- `AuthService.stopRefreshTimer` (lines 146–151). -/
def stopRefreshTimer (s : AuthState) : AuthState :=
  match s.refreshTimer with
  | none => s
  | some id => { clearTimeout id s with refreshTimer := none }

/-- `AuthService.startRefreshTimer` (lines 138–144): cancel any current
timer, then schedule the refresh callback at `14 * 60 * 1000` ms. -/
def startRefreshTimer (s : AuthState) : AuthState :=
  let s1 := stopRefreshTimer s
  let (s2, id) := setTimeout (14 * 60 * 1000) s1
  { s2 with refreshTimer := some id }

/-- `AuthService.clearAuth` (lines 53–60): the three `removeItem`s are
guarded by the window check, `stopRefreshTimer` is not. -/
def clearAuth (s : AuthState) : AuthState :=
  let s1 :=
    if s.hasWindow then { s with accessToken := none, refreshToken := none, userRaw := none }
    else s
  stopRefreshTimer s1

/-- Result of the remote `apiClient.refreshToken` call: the response
fields `AuthService` consumes on success, or any thrown failure
(network error, timeout, non-2xx, malformed response) collapsed into
one failure case, exactly as the `catch` in `refreshAccessToken` does. -/
structure RefreshResponse where
  accessToken : String
  refreshToken : String
  user : JVal

inductive ApiOutcome where
  | success (r : RefreshResponse)
  | failure

/-- Outcome of `AuthService.refreshAccessToken` (lines 120–135):
returned boolean, state afterwards, and whether the network call was
issued at all. -/
structure RefreshResult where
  ok : Bool
  state : AuthState
  apiCalled : Bool

/-- `AuthService.refreshAccessToken` (lines 120–135).  The source's
`if (!refreshToken) return false` is a JS *falsiness* test: an absent
or empty-string stored refresh token returns failure immediately, with
no network call and no clearing. -/
def refreshAccessToken (s : AuthState) (api : ApiOutcome) : RefreshResult :=
  if strOptFalsy (getRefreshToken s) then ⟨false, s, false⟩
  else
    match api with
    | .success r =>
      ⟨true, startRefreshTimer (setUser r.user (setTokens r.accessToken r.refreshToken s)), true⟩
    | .failure => ⟨false, clearAuth s, true⟩

/-- `AuthService.ensureValidToken` (lines 154–164).  `now` is
`Date.now()`; `api` is the outcome the remote refresh call would have
(consulted only if the refresh is actually invoked). -/
def ensureValidToken (now : ℕ) (s : AuthState) (api : ApiOutcome) : Option String × AuthState :=
  let accessToken := getAccessToken s
  if strOptFalsy accessToken || isTokenExpired now accessToken then
    let r := refreshAccessToken s api
    if r.ok then (getAccessToken r.state, r.state) else (none, r.state)
  else (accessToken, s)

/-- Validation result shape `{ valid, error? }` of lines 63–93. -/
structure VResult where
  valid : Bool
  error : Option String
  deriving DecidableEq, Repr

/-- One segment of the email regex: nonempty, no whitespace, no `@`
(the class `[^\s@]`; JS regex `\s` is the same set `trim` strips). -/
def emailSegOk (cs : List Char) : Bool :=
  !cs.isEmpty && cs.all (fun c => !(isJsTrimWs c) && c != '@')

/-- Membership in the email regex `/^[^\s@]+@[^\s@]+\.[^\s@]+$/`:
exactly one `@`, a nonempty local part, and a domain containing a dot
that is neither its first nor its last character (dots may occur in
either surrounding piece, since `.` lies inside `[^\s@]`). -/
def emailRegexMatch (s : String) : Bool :=
  match jsSplit '@' s with
  | [l, r] =>
    emailSegOk l && !r.isEmpty && r.all (fun c => !(isJsTrimWs c)) &&
      (List.range r.length).any (fun p => r.get? p == some '.' && 0 < p && p + 1 < r.length)
  | _ => false

/-- `AuthService.validateEmail` (lines 63–72). -/
def validateEmail (email : String) : VResult :=
  if email == "" || email.toList.all isJsTrimWs then
    ⟨false, some "Email é obrigatório"⟩
  else if !(emailRegexMatch email) then ⟨false, some "Email inválido"⟩
  else ⟨true, none⟩

/-- UTF-16 code units taken by one code point in a JS string. -/
def utf16Len (c : Char) : Nat :=
  if c.toNat < 0x10000 then 1 else 2

/-- JS `String.prototype.length`: the number of UTF-16 code units, not
code points (a non-BMP character counts as 2). -/
def jsStringLength (s : String) : Nat :=
  (s.toList.map utf16Len).sum

/-- `AuthService.validatePassword` (lines 76–93).  `password.length` is
the UTF-16 unit count `jsStringLength`.  `Char.isUpper`, `isLower`,
`isDigit`, `isAlphanum` are exactly the ASCII classes `[A-Z]`, `[a-z]`,
`[0-9]`, `[A-Za-z0-9]` of the source regexes (a regex without the `u`
flag scans code units, but no surrogate half lies in any of these
classes, and both halves of a non-BMP character match `[^A-Za-z0-9]`
just as the whole code point does, so the per-code-point scan agrees
with the per-unit one). -/
def validatePassword (password : String) : VResult :=
  if password == "" || jsStringLength password < 8 then
    ⟨false, some "A senha deve ter no mínimo 8 caracteres"⟩
  else if !(password.toList.any Char.isUpper) then
    ⟨false, some "A senha deve conter pelo menos uma letra maiúscula"⟩
  else if !(password.toList.any Char.isLower) then
    ⟨false, some "A senha deve conter pelo menos uma letra minúscula"⟩
  else if !(password.toList.any Char.isDigit) then
    ⟨false, some "A senha deve conter pelo menos um número"⟩
  else if !(password.toList.any (fun c => !c.isAlphanum)) then
    ⟨false, some "A senha deve conter pelo menos um caractere especial"⟩
  else ⟨true, none⟩

/-- Timer invariant maintained by `AuthService`: the event loop's
pending timeouts are exactly the one tracked by `refreshTimer` (the
service is the only scheduler in this program). -/
def TimerWf (s : AuthState) : Prop :=
  s.pendingTimers =
    (match s.refreshTimer with
     | none => []
     | some id => [(id, 14 * 60 * 1000)])

lemma stopRefreshTimer_of_none (s : AuthState) (h : s.refreshTimer = none) :
    stopRefreshTimer s = s := by
  unfold stopRefreshTimer
  rw [h]

lemma stopRefreshTimer_refreshTimer (s : AuthState) :
    (stopRefreshTimer s).refreshTimer = none := by
  unfold stopRefreshTimer clearTimeout
  cases hrt : s.refreshTimer <;> simp [hrt]

lemma stopRefreshTimer_fields (s : AuthState) :
    (stopRefreshTimer s).hasWindow = s.hasWindow ∧
    (stopRefreshTimer s).accessToken = s.accessToken ∧
    (stopRefreshTimer s).refreshToken = s.refreshToken ∧
    (stopRefreshTimer s).userRaw = s.userRaw := by
  unfold stopRefreshTimer clearTimeout
  cases s.refreshTimer <;> simp

lemma stopRefreshTimer_pending_of_wf (s : AuthState) (h : TimerWf s) :
    (stopRefreshTimer s).pendingTimers = [] := by
  unfold TimerWf at h
  unfold stopRefreshTimer clearTimeout
  cases hrt : s.refreshTimer with
  | none => simpa [hrt] using h
  | some id => rw [hrt] at h; simp [h]

lemma stopRefreshTimer_wf (s : AuthState) (h : TimerWf s) :
    TimerWf (stopRefreshTimer s) := by
  unfold TimerWf
  rw [stopRefreshTimer_refreshTimer, stopRefreshTimer_pending_of_wf s h]

lemma startRefreshTimer_wf (s : AuthState) (h : TimerWf s) :
    TimerWf (startRefreshTimer s) := by
  unfold startRefreshTimer setTimeout TimerWf
  simp [stopRefreshTimer_pending_of_wf s h]

lemma startRefreshTimer_pending (s : AuthState) (h : TimerWf s) :
    (startRefreshTimer s).refreshTimer = some (stopRefreshTimer s).nextTimerId ∧
    (startRefreshTimer s).pendingTimers = [((stopRefreshTimer s).nextTimerId, 14 * 60 * 1000)] := by
  unfold startRefreshTimer setTimeout
  simp [stopRefreshTimer_pending_of_wf s h]

lemma startRefreshTimer_fields (s : AuthState) :
    (startRefreshTimer s).hasWindow = s.hasWindow ∧
    (startRefreshTimer s).accessToken = s.accessToken ∧
    (startRefreshTimer s).refreshToken = s.refreshToken ∧
    (startRefreshTimer s).userRaw = s.userRaw := by
  unfold startRefreshTimer setTimeout
  simp [stopRefreshTimer_fields s]

/-- C6: `startRefreshTimer()` cancels any existing timer and schedules
exactly one one-shot refresh at the 14-minute mark (`14 * 60 * 1000` ms,
the assumed 15-minute lifetime minus a 1-minute margin); any number of
successive calls leaves exactly one pending scheduled refresh; and
`stopRefreshTimer()` is idempotent and leaves no pending timer. -/
theorem c6_refresh_timer (s : AuthState) (h : TimerWf s) :
    (∃ id, (startRefreshTimer s).refreshTimer = some id ∧
      (startRefreshTimer s).pendingTimers = [(id, 14 * 60 * 1000)]) ∧
    (∀ n : ℕ, (startRefreshTimer^[n + 1] s).pendingTimers.length = 1) ∧
    stopRefreshTimer (stopRefreshTimer s) = stopRefreshTimer s ∧
    (stopRefreshTimer s).pendingTimers = [] ∧
    (stopRefreshTimer s).refreshTimer = none := by
  refine ⟨⟨(stopRefreshTimer s).nextTimerId, startRefreshTimer_pending s h⟩, ?_, ?_, ?_, ?_⟩
  · intro n
    induction n generalizing s with
    | zero => simp [Function.iterate_one, (startRefreshTimer_pending s h).2]
    | succ m ih =>
      rw [Function.iterate_succ_apply]
      exact ih (startRefreshTimer s) (startRefreshTimer_wf s h)
  · exact stopRefreshTimer_of_none _ (stopRefreshTimer_refreshTimer s)
  · exact stopRefreshTimer_pending_of_wf s h
  · exact stopRefreshTimer_refreshTimer s

/-- C6 witness: from a well-formed state with a pending timer, two
successive starts leave exactly one pending scheduled refresh. -/
theorem c6_refresh_timer_witness :
    (startRefreshTimer^[2] ⟨true, none, some "r", none, some 3, [(3, 840000)], 4⟩).pendingTimers.length = 1 :=
  (c6_refresh_timer ⟨true, none, some "r", none, some 3, [(3, 840000)], 4⟩ rfl).2.1 1

/-- C10: `clearAuth()` always cancels the pending refresh timer — the
`stopRefreshTimer()` call sits outside the `typeof window` guard — so
after `clearAuth()` there is no pending scheduled refresh in any
execution context, browser or not. -/
theorem c10_clearAuth_cancels_timer (s : AuthState) (h : TimerWf s) :
    (clearAuth s).refreshTimer = none ∧ (clearAuth s).pendingTimers = [] := by
  unfold clearAuth
  by_cases hw : s.hasWindow = true
  · simp only [hw, if_pos rfl]
    constructor
    · exact stopRefreshTimer_refreshTimer _
    · exact stopRefreshTimer_pending_of_wf _ (by unfold TimerWf at h ⊢; simp [h])
  · rw [if_neg hw]
    exact ⟨stopRefreshTimer_refreshTimer s, stopRefreshTimer_pending_of_wf s h⟩

/-- C10 witness: in a non-browser context (`hasWindow = false`) with a
live timer, `clearAuth` still leaves no pending scheduled refresh. -/
theorem c10_clearAuth_cancels_timer_witness :
    (clearAuth ⟨false, some "a", some "r", some "u", some 7, [(7, 840000)], 8⟩).pendingTimers = [] :=
  (c10_clearAuth_cancels_timer ⟨false, some "a", some "r", some "u", some 7, [(7, 840000)], 8⟩ rfl).2

lemma getRefreshToken_eq_some {s : AuthState} {rt : String} (h : getRefreshToken s = some rt) :
    s.hasWindow = true ∧ s.refreshToken = some rt := by
  unfold getRefreshToken at h
  split at h
  · next hw => exact ⟨hw, h⟩
  · cases h

lemma clearAuth_getters (s : AuthState) :
    getAccessToken (clearAuth s) = none ∧ getRefreshToken (clearAuth s) = none ∧
    (getUser (clearAuth s)).1 = none := by
  unfold clearAuth
  by_cases hw : s.hasWindow = true
  · rw [if_pos hw]
    obtain ⟨f1, f2, f3, f4⟩ :=
      stopRefreshTimer_fields { s with accessToken := none, refreshToken := none, userRaw := none }
    unfold getAccessToken getRefreshToken getUser
    simp [f1, f2, f3, f4]
  · rw [if_neg hw]
    obtain ⟨f1, f2, f3, f4⟩ := stopRefreshTimer_fields s
    have hwb : s.hasWindow = false := by simpa using hw
    unfold getAccessToken getRefreshToken getUser
    simp [f1, f2, f3, f4, hwb]

lemma clearAuth_store_of_window (s : AuthState) (hw : s.hasWindow = true) :
    (clearAuth s).accessToken = none ∧ (clearAuth s).refreshToken = none ∧
    (clearAuth s).userRaw = none := by
  unfold clearAuth
  rw [if_pos hw]
  obtain ⟨f1, f2, f3, f4⟩ :=
    stopRefreshTimer_fields { s with accessToken := none, refreshToken := none, userRaw := none }
  exact ⟨by rw [f2], by rw [f3], by rw [f4]⟩

lemma clearAuth_pending_of_wf (s : AuthState) (h : TimerWf s) :
    (clearAuth s).pendingTimers = [] := by
  unfold clearAuth
  by_cases hw : s.hasWindow = true
  · rw [if_pos hw]
    exact stopRefreshTimer_pending_of_wf _ (by unfold TimerWf at h ⊢; simp [h])
  · rw [if_neg hw]
    exact stopRefreshTimer_pending_of_wf s h

lemma clearAuth_refreshTimer (s : AuthState) : (clearAuth s).refreshTimer = none := by
  unfold clearAuth
  by_cases hw : s.hasWindow = true
  · rw [if_pos hw]; exact stopRefreshTimer_refreshTimer _
  · rw [if_neg hw]; exact stopRefreshTimer_refreshTimer s

lemma refreshAccessToken_falsy (s : AuthState) (api : ApiOutcome)
    (h : strOptFalsy (getRefreshToken s) = true) :
    refreshAccessToken s api = ⟨false, s, false⟩ := by
  unfold refreshAccessToken
  rw [h]
  simp

lemma refreshAccessToken_failure_eq (s : AuthState) (rt : String)
    (h : getRefreshToken s = some rt) (hne : rt ≠ "") :
    refreshAccessToken s ApiOutcome.failure = ⟨false, clearAuth s, true⟩ := by
  unfold refreshAccessToken
  rw [h]
  simp [strOptFalsy, hne]

lemma refreshAccessToken_success_eq (s : AuthState) (resp : RefreshResponse) (rt : String)
    (h : getRefreshToken s = some rt) (hne : rt ≠ "") :
    refreshAccessToken s (ApiOutcome.success resp)
      = ⟨true,
          startRefreshTimer (setUser resp.user (setTokens resp.accessToken resp.refreshToken s)),
          true⟩ := by
  unfold refreshAccessToken
  rw [h]
  simp [strOptFalsy, hne]

/-- C1 counterexample: a state whose refresh token is absent but whose
access token (`"a"`) and user entry (`"1"`, valid JSON) are present.
`refreshAccessToken()` fails on the refresh-token-absent path without
clearing anything, and afterwards `getAccessToken()` and `getUser()`
still return values — contradicting the claim that after *every*
failure, including this path, all three reads come back absent. -/
theorem c1_counterexample :
    (refreshAccessToken ⟨true, some "a", none, some "1", none, [], 0⟩ ApiOutcome.failure).ok
        = false ∧
    getAccessToken
        (refreshAccessToken ⟨true, some "a", none, some "1", none, [], 0⟩
          ApiOutcome.failure).state = some "a" ∧
    (getUser
        (refreshAccessToken ⟨true, some "a", none, some "1", none, [], 0⟩
          ApiOutcome.failure).state).1 = some (JVal.jnum ⟨1, 0⟩) :=
  ⟨rfl, rfl, rfl⟩

/-- C1 (amended): after `refreshAccessToken()` fails because the remote
refresh call failed (the stored refresh token was present and
non-empty), subsequent `getAccessToken()`, `getRefreshToken()` and
`getUser()` all return absent.  In the failure path where the stored
refresh token was absent — or the empty string, which the source's
`!refreshToken` falsiness test treats the same way — the state is left
entirely unchanged, so nothing is cleared and a present access token or
profile entry survives. -/
theorem c1_after_refresh_failure (s : AuthState) (api : ApiOutcome) :
    (∀ rt, getRefreshToken s = some rt → rt ≠ "" → api = ApiOutcome.failure →
      (refreshAccessToken s api).ok = false ∧
      getAccessToken (refreshAccessToken s api).state = none ∧
      getRefreshToken (refreshAccessToken s api).state = none ∧
      (getUser (refreshAccessToken s api).state).1 = none) ∧
    (strOptFalsy (getRefreshToken s) = true →
      (refreshAccessToken s api).ok = false ∧
      (refreshAccessToken s api).state = s) := by
  have g := clearAuth_getters s
  constructor
  · intro rt h hne hapi
    subst hapi
    rw [refreshAccessToken_failure_eq s rt h hne]
    exact ⟨rfl, g.1, g.2.1, g.2.2⟩
  · intro h
    rw [refreshAccessToken_falsy s api h]
    exact ⟨rfl, rfl⟩

/-- C1 witness: concrete remote-failure run of the amended claim. -/
theorem c1_after_refresh_failure_witness :
    getAccessToken
        (refreshAccessToken ⟨true, some "a", some "r", some "1", some 3, [(3, 840000)], 4⟩
          ApiOutcome.failure).state = none :=
  ((c1_after_refresh_failure ⟨true, some "a", some "r", some "1", some 3, [(3, 840000)], 4⟩
      ApiOutcome.failure).1 "r" rfl (by decide) rfl).2.1

lemma jsGeNum_iff (now : ℕ) (x : JNum) :
    jsGeNum now x = true ↔ jnumToRat x * 1000 ≤ (now : ℚ) := by
  unfold jsGeNum jnumToRat
  by_cases h : 0 ≤ x.exp10
  · rw [if_pos h, if_pos h, decide_eq_true_iff]
    constructor
    · intro hle
      have h2 : ((x.mant * 10 ^ x.exp10.toNat * 1000 : ℤ) : ℚ) ≤ ((now : ℤ) : ℚ) := by
        exact_mod_cast hle
      push_cast at h2
      linarith
    · intro hle
      have h2 : ((x.mant * 10 ^ x.exp10.toNat * 1000 : ℤ) : ℚ) ≤ ((now : ℤ) : ℚ) := by
        push_cast
        linarith
      exact_mod_cast h2
  · rw [if_neg h, if_neg h, decide_eq_true_iff]
    have hpos : (0 : ℚ) < 10 ^ (-x.exp10).toNat := by positivity
    rw [div_mul_eq_mul_div, div_le_iff₀ hpos]
    constructor
    · intro hle
      have h2 : ((x.mant * 1000 : ℤ) : ℚ) ≤ (((now : ℤ) * 10 ^ (-x.exp10).toNat : ℤ) : ℚ) := by
        exact_mod_cast hle
      push_cast at h2
      linarith
    · intro hle
      have h2 : ((x.mant * 1000 : ℤ) : ℚ) ≤ (((now : ℤ) * 10 ^ (-x.exp10).toNat : ℤ) : ℚ) := by
        push_cast
        linarith
      exact_mod_cast h2

lemma refresh_success_getters (s : AuthState) (resp : RefreshResponse) (rt : String)
    (h : getRefreshToken s = some rt) (hne : rt ≠ "") :
    getAccessToken (refreshAccessToken s (ApiOutcome.success resp)).state = some resp.accessToken ∧
    getRefreshToken (refreshAccessToken s (ApiOutcome.success resp)).state
        = some resp.refreshToken ∧
    (refreshAccessToken s (ApiOutcome.success resp)).state.userRaw
        = some (stringify resp.user) := by
  obtain ⟨hw, hrt⟩ := getRefreshToken_eq_some h
  obtain ⟨f1, f2, f3, f4⟩ :=
    startRefreshTimer_fields (setUser resp.user (setTokens resp.accessToken resp.refreshToken s))
  rw [refreshAccessToken_success_eq s resp rt h hne]
  dsimp only
  unfold getAccessToken getRefreshToken
  rw [f1, f2, f3, f4]
  unfold setUser setTokens
  simp [hw]

lemma refresh_success_timer (s : AuthState) (resp : RefreshResponse) (rt : String)
    (h : getRefreshToken s = some rt) (hne : rt ≠ "") (hwf : TimerWf s) :
    ∃ id, (refreshAccessToken s (ApiOutcome.success resp)).state.refreshTimer = some id ∧
      (refreshAccessToken s (ApiOutcome.success resp)).state.pendingTimers
        = [(id, 14 * 60 * 1000)] := by
  obtain ⟨hw, hrt⟩ := getRefreshToken_eq_some h
  rw [refreshAccessToken_success_eq s resp rt h hne]
  dsimp only
  have hwf2 : TimerWf (setUser resp.user (setTokens resp.accessToken resp.refreshToken s)) := by
    unfold TimerWf at hwf ⊢
    unfold setUser setTokens
    simp [hw]
    exact hwf
  exact ⟨_, startRefreshTimer_pending _ hwf2⟩

/-- C5: `refreshAccessToken()` is fail-closed.  With the stored refresh
token falsy — absent, or the empty string, which the source's
`if (!refreshToken)` treats identically — it returns failure
immediately, the state unchanged and no network call issued; when the
remote call fails it clears access token, refresh token and profile
from the store, cancels the refresh timer and returns failure; only on
remote success does it persist the response tokens and profile and
restart the timer, returning success. -/
theorem c5_refresh_fail_closed (s : AuthState) (api : ApiOutcome) :
    (strOptFalsy (getRefreshToken s) = true →
      refreshAccessToken s api = ⟨false, s, false⟩) ∧
    (∀ rt, getRefreshToken s = some rt → rt ≠ "" →
      (refreshAccessToken s ApiOutcome.failure).ok = false ∧
      (refreshAccessToken s ApiOutcome.failure).apiCalled = true ∧
      (refreshAccessToken s ApiOutcome.failure).state.accessToken = none ∧
      (refreshAccessToken s ApiOutcome.failure).state.refreshToken = none ∧
      (refreshAccessToken s ApiOutcome.failure).state.userRaw = none ∧
      (refreshAccessToken s ApiOutcome.failure).state.refreshTimer = none ∧
      (TimerWf s → (refreshAccessToken s ApiOutcome.failure).state.pendingTimers = [])) ∧
    (∀ rt resp, getRefreshToken s = some rt → rt ≠ "" →
      (refreshAccessToken s (ApiOutcome.success resp)).ok = true ∧
      (refreshAccessToken s (ApiOutcome.success resp)).apiCalled = true ∧
      getAccessToken (refreshAccessToken s (ApiOutcome.success resp)).state
          = some resp.accessToken ∧
      getRefreshToken (refreshAccessToken s (ApiOutcome.success resp)).state
          = some resp.refreshToken ∧
      (refreshAccessToken s (ApiOutcome.success resp)).state.userRaw
          = some (stringify resp.user) ∧
      (TimerWf s → ∃ id,
        (refreshAccessToken s (ApiOutcome.success resp)).state.refreshTimer = some id ∧
        (refreshAccessToken s (ApiOutcome.success resp)).state.pendingTimers
          = [(id, 14 * 60 * 1000)])) := by
  refine ⟨?_, ?_, ?_⟩
  · intro h
    exact refreshAccessToken_falsy s api h
  · intro rt h hne
    obtain ⟨hw, _⟩ := getRefreshToken_eq_some h
    obtain ⟨a1, a2, a3⟩ := clearAuth_store_of_window s hw
    rw [refreshAccessToken_failure_eq s rt h hne]
    exact ⟨rfl, rfl, a1, a2, a3, clearAuth_refreshTimer s,
      fun hwf => clearAuth_pending_of_wf s hwf⟩
  · intro rt resp h hne
    obtain ⟨g1, g2, g3⟩ := refresh_success_getters s resp rt h hne
    refine ⟨?_, ?_, g1, g2, g3, fun hwf => refresh_success_timer s resp rt h hne hwf⟩ <;>
      rw [refreshAccessToken_success_eq s resp rt h hne]

/-- C5 witness: with a stored non-empty refresh token and a failing
remote call, the access token entry is cleared. -/
theorem c5_refresh_fail_closed_witness :
    (refreshAccessToken ⟨true, some "a", some "r", some "u", some 3, [(3, 840000)], 4⟩
        ApiOutcome.failure).state.accessToken = none :=
  (((c5_refresh_fail_closed ⟨true, some "a", some "r", some "u", some 3, [(3, 840000)], 4⟩
      ApiOutcome.failure).2.1) "r" rfl (by decide)).2.2.1

lemma decodeJWT_empty : decodeJWT "" = none := rfl

lemma objGet_some_truthy (j : JVal) (k : String) (e : JVal) (h : objGet j k = some e) :
    jsTruthy j = true := by
  cases j <;> simp [objGet] at h
  rfl

/-- C4: `isTokenExpired` returns true for an absent token, an
undecodable token, and a token whose decoded claims lack the `exp`
field; and when the claims carry a numeric expiry `e`, it returns true
exactly when the current time in milliseconds is at least `e * 1000`
(inclusive boundary; `Date.now()` is nonnegative on any real clock,
which the `ℕ` type of `now` records). -/
theorem c4_isTokenExpired (now : ℕ) (token : Option String) :
    (token = none → isTokenExpired now token = true) ∧
    (∀ t, token = some t → decodeJWT t = none → isTokenExpired now token = true) ∧
    (∀ t j, token = some t → decodeJWT t = some j → objGet j "exp" = none →
      isTokenExpired now token = true) ∧
    (∀ t j e, token = some t → decodeJWT t = some j → objGet j "exp" = some (JVal.jnum e) →
      (isTokenExpired now token = true ↔ jnumToRat e * 1000 ≤ (now : ℚ))) := by
  refine ⟨?_, ?_, ?_, ?_⟩
  · intro h
    subst h
    rfl
  · intro t ht hd
    subst ht
    by_cases he : t = ""
    · subst he; rfl
    · simp [isTokenExpired, strOptFalsy, he, hd]
  · intro t j ht hj hexp
    subst ht
    have he : t ≠ "" := by
      intro h0
      subst h0
      rw [decodeJWT_empty] at hj
      cases hj
    simp [isTokenExpired, strOptFalsy, he, hj, hexp, ite_self]
  · intro t j e ht hj hexp
    subst ht
    have he : t ≠ "" := by
      intro h0
      subst h0
      rw [decodeJWT_empty] at hj
      cases hj
    have htr := objGet_some_truthy j "exp" _ hexp
    by_cases hm : e.mant = 0
    · have hval : jnumToRat e = 0 := by
        unfold jnumToRat
        rw [hm]
        split <;> simp
      have hlhs : isTokenExpired now (some t) = true := by
        simp [isTokenExpired, strOptFalsy, he, hj, hexp, htr, jsTruthy, hm]
      rw [hlhs, hval]
      simp
    · have hetr : jsTruthy (JVal.jnum e) = true := by simp [jsTruthy, hm]
      have hred : isTokenExpired now (some t) = jsGeNum now e := by
        simp [isTokenExpired, strOptFalsy, he, hj, hexp, htr, hetr, toNumber]
      rw [hred]
      exact jsGeNum_iff now e

/-- C4 witness: the boundary instant `now = exp * 1000` counts as
expired for a token with `exp = 1`. -/
theorem c4_isTokenExpired_witness :
    isTokenExpired 1000 (some "x.eyJleHAiOjF9") = true :=
  ((c4_isTokenExpired 1000 (some "x.eyJleHAiOjF9")).2.2.2 "x.eyJleHAiOjF9"
      (JVal.jobj [("exp", JVal.jnum ⟨1, 0⟩)]) ⟨1, 0⟩ rfl rfl rfl).mpr
    (by norm_num [jnumToRat])

lemma ensureValidToken_eq (now : ℕ) (s : AuthState) (api : ApiOutcome) :
    ensureValidToken now s api =
      if strOptFalsy (getAccessToken s) || isTokenExpired now (getAccessToken s) then
        if (refreshAccessToken s api).ok then
          (getAccessToken (refreshAccessToken s api).state, (refreshAccessToken s api).state)
        else (none, (refreshAccessToken s api).state)
      else (getAccessToken s, s) := rfl

/-- C2 counterexample: with no stored access token, a stored refresh
token, and a remote refresh that succeeds but hands back the
undecodable access token `"bad"`, `ensureValidToken()` returns that
token even though `isExpired` holds for it at the moment of return —
the refreshed token is never re-checked. -/
theorem c2_counterexample :
    (ensureValidToken 0 ⟨true, none, some "r", none, none, [], 0⟩
        (ApiOutcome.success ⟨"bad", "r2", JVal.jnull⟩)).1 = some "bad" ∧
    isTokenExpired 0 (some "bad") = true :=
  ⟨rfl, rfl⟩

/-- C2 (amended): a token returned by `ensureValidToken()` is never one
that was *stored* and expired — a non-absent return is either the
stored token, re-checked as unexpired, or the access token of a
just-successful refresh response; under the assumption that refresh
responses carry unexpired tokens, every non-absent return satisfies
`isExpired = false` at the moment of return. -/
theorem c2_ensureValidToken_not_expired (now : ℕ) (s : AuthState) (api : ApiOutcome)
    (hapi : ∀ resp, api = ApiOutcome.success resp →
      isTokenExpired now (some resp.accessToken) = false) :
    ∀ t, (ensureValidToken now s api).1 = some t → isTokenExpired now (some t) = false := by
  intro t ht
  rw [ensureValidToken_eq] at ht
  split_ifs at ht with hcond hok
  · cases hrt : getRefreshToken s with
    | none => simp [refreshAccessToken, hrt, strOptFalsy] at hok
    | some rt =>
      by_cases hne : rt = ""
      · subst hne
        simp [refreshAccessToken, hrt, strOptFalsy] at hok
      · cases api with
        | failure => rw [refreshAccessToken_failure_eq s rt hrt hne] at hok; simp at hok
        | success resp =>
          obtain ⟨g1, g2, g3⟩ := refresh_success_getters s resp rt hrt hne
          rw [g1] at ht
          injection ht with ht2
          rw [← ht2]
          exact hapi resp rfl
  · have hcond2 : (strOptFalsy (getAccessToken s) || isTokenExpired now (getAccessToken s))
        = false := eq_false_of_ne_true hcond
    have h2 := (Bool.or_eq_false_iff.mp hcond2).2
    rw [show getAccessToken s = some t from ht] at h2
    exact h2

/-- C2 witness: a stored, unexpired token is returned unrefreshed and
satisfies `isExpired = false`. -/
theorem c2_ensureValidToken_not_expired_witness :
    isTokenExpired 0 (some "x.eyJleHAiOjF9") = false :=
  c2_ensureValidToken_not_expired 0 ⟨true, some "x.eyJleHAiOjF9", none, none, none, [], 0⟩
    ApiOutcome.failure (fun _ h => ApiOutcome.noConfusion h) "x.eyJleHAiOjF9" rfl

/-- C3 counterexample: `"x.eyJleHAiOjF9"` has two dot-separated
segments — the wrong count for a JWT — yet `decodeJWT` does not return
null: it decodes the second segment to the claims `{"exp":1}`.  Only
the *absence* of a second segment is rejected, not a wrong count. -/
theorem c3_counterexample :
    (jsSplit '.' "x.eyJleHAiOjF9").length = 2 ∧
    decodeJWT "x.eyJleHAiOjF9" = some (JVal.jobj [("exp", JVal.jnum ⟨1, 0⟩)]) :=
  ⟨rfl, rfl⟩

/-- C3 (amended): `decodeJWT` never throws — it is a total function
into an option — and returns null whenever the token has no second
dot-separated segment, or base64 decoding of the (alphabet-translated)
second segment fails, or the percent/UTF-8 decoding of its bytes fails,
or the recovered text is not parseable JSON; a segment count other than
three is not by itself rejected when a decodable second segment exists. -/
theorem c3_decodeJWT_malformed (t : String) :
    (decodeJWT t = none ∨ ∃ j, decodeJWT t = some j) ∧
    ((jsSplit '.' t).get? 1 = none → decodeJWT t = none) ∧
    (∀ seg, (jsSplit '.' t).get? 1 = some seg →
      (atob (String.mk (seg.map fun c => if c = '-' then '+' else if c = '_' then '/' else c))
          = none → decodeJWT t = none) ∧
      (∀ bytes,
        atob (String.mk (seg.map fun c => if c = '-' then '+' else if c = '_' then '/' else c))
            = some bytes →
        (decodeURIComponent (percentEncode bytes) = none → decodeJWT t = none) ∧
        (∀ payload, decodeURIComponent (percentEncode bytes) = some payload →
          decodeJWT t = jsonParse (String.mk payload)))) := by
  refine ⟨?_, ?_, ?_⟩
  · cases h : decodeJWT t with
    | none => exact Or.inl rfl
    | some j => exact Or.inr ⟨j, rfl⟩
  · intro h
    rw [List.get?_eq_getElem?] at h
    simp [decodeJWT, h]
  · intro seg hseg
    rw [List.get?_eq_getElem?] at hseg
    refine ⟨?_, ?_⟩
    · intro ha
      simp [decodeJWT, hseg, ha]
    · intro bytes hb
      refine ⟨?_, ?_⟩
      · intro hd
        simp [decodeJWT, hseg, hb, hd]
      · intro payload hp
        simp [decodeJWT, hseg, hb, hp]

/-- C3 witness: a token with no dot at all fails segment extraction and
decodes to null. -/
theorem c3_decodeJWT_malformed_witness : decodeJWT "noDots" = none :=
  (c3_decodeJWT_malformed "noDots").2.1 rfl

/-- C7 counterexample: the stored profile entry `""` is text that fails
`JSON.parse`, and `getUser()` does return absent — but through the
falsy-string early return, which leaves the corrupted entry in place: a
raw read of the key afterwards still finds `""`, contradicting the
claimed deletion. -/
theorem c7_counterexample :
    jsonParse "" = none ∧
    (getUser ⟨true, none, none, some "", none, [], 0⟩).1 = none ∧
    (getUser ⟨true, none, none, some "", none, [], 0⟩).2.userRaw = some "" :=
  ⟨rfl, rfl, rfl⟩

/-- C7 (amended): when the stored profile entry holds *non-empty* text
that fails structured deserialization, `getUser()` returns absent and
deletes the corrupted entry (a raw read afterwards finds nothing), the
parse error never reaching the caller; when the entry is the empty
string — which also fails `JSON.parse` — absence is reported through
the falsy-string early return and the entry is left untouched. -/
theorem c7_getUser_corrupted (s : AuthState) (us : String) (hw : s.hasWindow = true)
    (hu : s.userRaw = some us) (hp : jsonParse us = none) :
    (getUser s).1 = none ∧
    (us ≠ "" → (getUser s).2.userRaw = none) ∧
    (us = "" → (getUser s).2 = s) := by
  by_cases he : us = ""
  · subst he
    refine ⟨?_, ?_, ?_⟩ <;> simp [getUser, hu, hw]
  · refine ⟨?_, ?_, ?_⟩ <;> simp [getUser, hu, hw, he, hp]

/-- C7 witness: the non-empty corrupted entry `"{bad"` is deleted. -/
theorem c7_getUser_corrupted_witness :
    (getUser ⟨true, none, none, some "\x7bbad", none, [], 0⟩).2.userRaw = none :=
  (c7_getUser_corrupted ⟨true, none, none, some "\x7bbad", none, [], 0⟩ "\x7bbad"
      rfl rfl rfl).2.1 (by decide)

/-- C8: `validatePassword` accepts exactly the strings with at least 8
characters — measured, as the source's `password.length` does, in
UTF-16 code units (`jsStringLength`) — an ASCII uppercase letter, an
ASCII lowercase letter, a digit and a non-alphanumeric character, and
reports the documented error for each of the specified rejected
examples. -/
theorem c8_validatePassword :
    (∀ s : String, (validatePassword s).valid = true ↔
      (8 ≤ jsStringLength s ∧ s.toList.any Char.isUpper = true ∧
        s.toList.any Char.isLower = true ∧ s.toList.any Char.isDigit = true ∧
        s.toList.any (fun c => !c.isAlphanum) = true)) ∧
    validatePassword "short1!" = ⟨false, some "A senha deve ter no mínimo 8 caracteres"⟩ ∧
    validatePassword "alllowercase1!"
        = ⟨false, some "A senha deve conter pelo menos uma letra maiúscula"⟩ ∧
    validatePassword "ALLUPPER1!"
        = ⟨false, some "A senha deve conter pelo menos uma letra minúscula"⟩ ∧
    validatePassword "NoDigits!" = ⟨false, some "A senha deve conter pelo menos um número"⟩ ∧
    validatePassword "NoSpecial1"
        = ⟨false, some "A senha deve conter pelo menos um caractere especial"⟩ ∧
    validatePassword "Valid1Pass!" = ⟨true, none⟩ := by
  refine ⟨?_, by decide, by decide, by decide, by decide, by decide, by decide⟩
  intro s
  unfold validatePassword
  split_ifs with h1 h2 h3 h4 h5
  · constructor
    · intro hf
      simp at hf
    · rintro ⟨hlen, -⟩
      simp only [Bool.or_eq_true, beq_iff_eq, decide_eq_true_eq] at h1
      rcases h1 with h0 | hlt
      · subst h0
        simp [jsStringLength] at hlen
      · omega
  all_goals simp_all

lemma splitCharAux_length (sep : Char) (cs : List Char) :
    ∀ acc, (splitCharAux sep cs acc).length = cs.count sep + 1 := by
  induction cs with
  | nil => intro acc; simp [splitCharAux]
  | cons c rest ih =>
    intro acc
    by_cases h : c = sep
    · simp [splitCharAux, h, ih, List.count_cons]
    · simp [splitCharAux, h, ih, List.count_cons, Ne.symm h]

lemma emailRegexMatch_mem_at (s : String) (h : emailRegexMatch s = true) : '@' ∈ s.toList := by
  have hlen : (jsSplit '@' s).length = 2 := by
    unfold emailRegexMatch at h
    rcases hsp : jsSplit '@' s with _ | ⟨a, _ | ⟨b, _ | ⟨c, tl⟩⟩⟩ <;> rw [hsp] at h <;>
      simp_all
  have hc := splitCharAux_length '@' s.toList []
  unfold jsSplit at hlen
  rw [hc] at hlen
  have hpos : 0 < s.toList.count '@' := by omega
  exact List.count_pos_iff.mp hpos

/-- C9: `validateEmail` accepts exactly the non-empty strings matching
the source regex `/^[^\s@]+@[^\s@]+\.[^\s@]+$/` (one `@`, no
whitespace, nonempty local part, and a domain with an interior dot),
and behaves as specified on the three given examples. -/
theorem c9_validateEmail :
    (∀ s : String, (validateEmail s).valid = true ↔ (s ≠ "" ∧ emailRegexMatch s = true)) ∧
    validateEmail "" = ⟨false, some "Email é obrigatório"⟩ ∧
    validateEmail "not-an-email" = ⟨false, some "Email inválido"⟩ ∧
    validateEmail "user@example.com" = ⟨true, none⟩ := by
  refine ⟨?_, by decide, by decide, by decide⟩
  intro s
  unfold validateEmail
  split_ifs with h1 h2
  · constructor
    · intro hf
      cases hf
    · rintro ⟨hne, hm⟩
      exfalso
      rcases Bool.or_eq_true_iff.mp h1 with hemp | hall
      · exact hne (by simpa using hemp)
      · have hat := emailRegexMatch_mem_at s hm
        have := (List.all_eq_true.mp hall) '@' hat
        simp [isJsTrimWs] at this
  · constructor
    · intro hf
      cases hf
    · rintro ⟨hne, hm⟩
      rw [hm] at h2
      cases h2
  · refine ⟨fun _ => ⟨?_, ?_⟩, fun _ => rfl⟩
    · intro h0
      subst h0
      simp at h1
    · have := eq_false_of_ne_true h2
      simpa using this
